import Mathlib

/-!
# it-dl/go-examples, `postgres/main.go`

A shallow embedding of the `users` command-line tool: the `User` record, the
fragment of `fmt` formatting the program uses, the query values built by the
handlers `insert`, `remove`, `update` and `all`, the reading of `db.ini`, and
the `switch` on `os.Args[2]` in `main`.

The storage handle `*pg.DB` is an interface record `DB σ` over an arbitrary
storage state `σ`; the handlers and the dispatcher are stated for every such
handle.  The clock (`time.Now()`) and the rendering of a `time.Time`
(`Time.String()`) are parameters.
-/

set_option autoImplicit false

namespace Postgres

/-! ## Data model -/

/-- An error value (`error`), kept as its description. -/
abbrev Err := String

/-- A `time.Time` instant, counted in nanoseconds from the zero `Time`. -/
structure Time where
  nanos : Int
deriving DecidableEq, Repr

/-- The record `User` of `main.go` (`Id` is an `int64`). -/
structure User where
  Id : Int
  Username : String
  Email : String
  CreatedAt : Time
deriving DecidableEq, Repr

/-- The zero value of `User` (`var user User`, `User{}`): id 0, empty strings
and the zero `Time`. -/
def User.zero : User := { Id := 0, Username := "", Email := "", CreatedAt := ⟨0⟩ }

/-! ## The fragment of `fmt` used by the program

Directives are `%` followed by an optional decimal width and one of the verbs
`v`, `d`, `s`; `%%` is a literal percent sign.  A value is written in its
default form and, when it has fewer characters than the width, spaces are put
in front of it (no `-` flag is ever used by the program). -/

/-- An operand of `Printf`: an integer, a string, or a `time.Time` (a
`Stringer`, printed through its `String` method). -/
inductive Value where
  | int (i : Int)
  | str (s : String)
  | time (t : Time)
deriving DecidableEq, Repr

/-- The default text of an operand; `timeString` is `Time.String`. -/
def Value.text (timeString : Time → String) : Value → List Char
  | .int i => (toString i).data
  | .str s => s.data
  | .time t => (timeString t).data

/-- The Go type name of an operand, as the bad-verb marker prints it. -/
def Value.typeName : Value → String
  | .int _ => "int64"
  | .str _ => "string"
  | .time _ => "time.Time"

/-- Whether verb `c` applies to the operand: `v` to all, `d` to integers,
`s` to strings and to `Stringer`s. -/
def Value.accepts : Value → Char → Bool
  | .int _, c => c = 'v' || c = 'd'
  | .str _, c => c = 'v' || c = 's'
  | .time _, c => c = 'v' || c = 's'

/-- The padding of `fmt`: `width - len` spaces in front when the text is
shorter than the width, the text as it is otherwise. -/
def pad (width : Nat) (s : List Char) : List Char :=
  List.replicate (width - s.length) ' ' ++ s

/-- One directive applied to one operand: the padded default text, or the
marker `%!c(type=text)` when the verb does not apply to the operand. -/
def fmtValue (timeString : Time → String) (width : Nat) (c : Char) (a : Value) : List Char :=
  if a.accepts c then pad width (a.text timeString)
  else '%' :: '!' :: c :: '(' :: (a.typeName.data ++ '=' :: (a.text timeString ++ [')']))

/-- The value of a decimal digit, `none` for any other character. -/
def digit? (c : Char) : Option Nat :=
  if '0' ≤ c ∧ c ≤ '9' then some (c.toNat - '0'.toNat) else none

/-- The formatting loop over the format's characters.  With `none` it copies
literal text; with `some w` it is inside a directive whose width read so far
is `w`. -/
def sprintfAux (timeString : Time → String) :
    List Char → Option Nat → List Value → List Char
  | [], none, [] => []
  | [], none, a :: rest =>
    "%!(EXTRA ".data ++ (", ".data).intercalate
      ((a :: rest).map fun x => x.typeName.data ++ '=' :: x.text timeString) ++ [')']
  | [], some _, _ => "%!(NOVERB)".data
  | c :: fmt, none, args =>
    if c = '%' then sprintfAux timeString fmt (some 0) args
    else c :: sprintfAux timeString fmt none args
  | c :: fmt, some w, args =>
    match digit? c with
    | some d => sprintfAux timeString fmt (some (10 * w + d)) args
    | none =>
      if c = '%' then '%' :: sprintfAux timeString fmt none args
      else match args with
        | [] => '%' :: '!' :: c :: ("(MISSING)".data ++ sprintfAux timeString fmt none [])
        | a :: rest => fmtValue timeString w c a ++ sprintfAux timeString fmt none rest

/-- The text produced by `fmt.Sprintf(format, args...)`. -/
def Sprintf (timeString : Time → String) (format : String) (args : List Value) : String :=
  String.mk (sprintfAux timeString format.data none args)

/-- The method `func (u User) String() string`. -/
def User.String (timeString : Time → String) (u : User) : String :=
  Sprintf timeString "User<%d %s %s %s>"
    [.int u.Id, .str u.Username, .str u.Email, .time u.CreatedAt]


/-! ## The storage handle

`pg.DB` is used through five calls.  Each takes the storage state and gives
back its answer and the next state; an `error` answer is the call's `err`. -/

/-- A query parameter: a string, or the list wrapped by `pg.In`. -/
inductive Param where
  | str (s : String)
  | In (ids : List String)
deriving DecidableEq, Repr

/-- The value `db.Model` is given a pointer to: one `User` (`&user`,
`&User{}`) or a slice of them (`&users`). -/
inductive ModelValue where
  | struct (u : User)
  | slice (us : List User)
deriving DecidableEq, Repr

/-- A column value written by an `UPDATE`. -/
inductive ColumnValue where
  | text (s : String)
  | timestamp (t : Time)
deriving DecidableEq, Repr

/-- One item of the SET clause of an `UPDATE`: the expression of a `Set` call
with its parameter, or a column of the model with the value to write. -/
inductive SetItem where
  | expr (e : String) (param : Param)
  | column (name : String) (value : ColumnValue)
deriving DecidableEq, Repr

/-- The part of an `orm.Query` the program fills in: the value the model is
bound to, and the `Set`, `Where` and `Returning` calls made on it, in call
order. -/
structure Query where
  model : ModelValue
  set : List (String × Param)
  conds : List (String × Param)
  returning : List String
deriving DecidableEq, Repr

/-- The query `db.Model(&value)` before any clause is added. -/
def Query.Model (value : ModelValue) : Query :=
  { model := value, set := [], conds := [], returning := [] }

/-- The SET clause of the statement `q.Update()` sends (built by go-pg, the
library the program calls): the `Set` calls in order when there is one; with
no `Set` call and a struct model, every column of the struct but the primary
key `id`, in field order, with the value the struct holds (the `notnull` tag
has a zero value written as it is).  A slice model without `Set` calls gives
no item. -/
def Query.updateSet (q : Query) : List SetItem :=
  match q.set with
  | a :: as => (a :: as).map fun x => SetItem.expr x.1 x.2
  | [] =>
    match q.model with
    | .struct u =>
      [.column "username" (.text u.Username), .column "email" (.text u.Email),
       .column "created_at" (.timestamp u.CreatedAt)]
    | .slice _ => []

/-- The call `q.Set(expr, param)`: the clause is added to the query the call
is made on, so `update` need not keep the result. -/
def Query.Set (q : Query) (expr : String) (param : Param) : Query :=
  { q with set := q.set ++ [(expr, param)] }

/-- The call `q.Where(cond, param)`. -/
def Query.Where (q : Query) (cond : String) (param : Param) : Query :=
  { q with conds := q.conds ++ [(cond, param)] }

/-- The call `q.Returning(columns)`. -/
def Query.Returning (q : Query) (columns : String) : Query :=
  { q with returning := q.returning ++ [columns] }

/-- The storage handle `*pg.DB` over a storage state `σ`.  `Delete` answers
with `res.RowsAffected()`, `Update` with the model as `RETURNING` filled it,
`Select` with the rows read. -/
structure DB (σ : Type) where
  Insert : User → σ → Except Err User × σ
  Delete : Query → σ → Except Err Int × σ
  Update : Query → σ → Except Err User × σ
  Select : Query → σ → Except Err (List User) × σ
  CreateTable : σ → Option Err × σ

/-! ## The handlers -/

section Handlers

variable {σ : Type}

/-- The record `insert` hands to `db.Insert`: `Id` is left at its zero value,
`CreatedAt` is the clock reading `now` (`time.Now()`). -/
def insertRecord (now : Time) (username email : String) : User :=
  { Id := 0, Username := username, Email := email, CreatedAt := now }

/-- The function `insert`. -/
def insert (db : DB σ) (now : Time) (username email : String) (s : σ) :
    Except Err User × σ :=
  db.Insert (insertRecord now username email) s

/-- The statement `remove` runs: `db.Model(&User{}).Where("id IN (?)", pg.In(ids))`. -/
def removeQuery (ids : List String) : Query :=
  let inIds := Param.In ids
  (Query.Model (.struct User.zero)).Where "id IN (?)" inIds

/-- The function `remove`. -/
def remove (db : DB σ) (ids : List String) (s : σ) : Except Err Int × σ :=
  match db.Delete (removeQuery ids) s with
  | (.error err, s1) => (.error err, s1)
  | (.ok res, s1) => (.ok res, s1)

/-- The query `update` builds and calls `Update()` on: the model bound to the
zero-valued `user` (`var user User`), with `email` set when there is a first
field, `username` set when there is a second, then `Where` and `Returning`.
The SET clause of the statement sent is its `updateSet`. -/
def updateQuery (id : String) (fields : List String) : Query :=
  let user := User.zero
  let model := Query.Model (.struct user)
  let model := if h : fields.length > 0 then model.Set "email = ?" (.str fields[0]) else model
  let model := if h : fields.length > 1 then model.Set "username = ?" (.str fields[1]) else model
  (model.Where "id = ?" (.str id)).Returning "*"

/-- The function `update`. -/
def update (db : DB σ) (id : String) (fields : List String) (s : σ) : Except Err User × σ :=
  match db.Update (updateQuery id fields) s with
  | (.error err, s1) => (.error err, s1)
  | (.ok user, s1) => (.ok user, s1)

/-- The function `all`: `db.Model(&users).Select()` on the nil slice `users`. -/
def all (db : DB σ) (s : σ) : Except Err (List User) × σ :=
  match db.Select (Query.Model (.slice [])) s with
  | (.error err, s1) => (.error err, s1)
  | (.ok users, s1) => (.ok users, s1)

/-- The function `createSchema`. -/
def createSchema (db : DB σ) (s : σ) : Option Err × σ :=
  match db.CreateTable s with
  | (some err, s1) => (some err, s1)
  | (none, s1) => (none, s1)

end Handlers

/-! ## Process outcome -/

/-- A call of one of the four handlers, with its arguments. -/
inductive HandlerCall where
  | insert (username email : String)
  | remove (ids : List String)
  | update (id : String) (fields : List String)
  | all
deriving DecidableEq, Repr

/-- How the process ends: `main` returns (status 0), `os.Exit(code)`, a
run-time panic on an index or slice out of range, or `panic(err)` from
`checkErr`. -/
inductive Exit where
  | returned
  | status (code : Nat)
  | indexPanic
  | errPanic (err : Err)
deriving DecidableEq, Repr

/-- What a run did: the texts written to standard output (one per print
call, in order), the handler calls made, how it ended, and the storage
state it left. -/
structure Run (σ : Type) where
  stdout : List String
  calls : List HandlerCall
  exit : Exit
  st : σ

section Dispatch

variable {σ : Type}

/-- The function `fatal`: `fmt.Println(v)` then `os.Exit(1)`. -/
def fatal (v : String) (s : σ) : Run σ :=
  { stdout := [v ++ "\n"], calls := [], exit := .status 1, st := s }

/-- The lines printed by the `for _, user := range users` loop. -/
def userLines (timeString : Time → String) (users : List User) : List String :=
  users.map fun user =>
    Sprintf timeString "%3v | %8v | %15v | %20v\n"
      [.int user.Id, .str user.Username, .str user.Email, .time user.CreatedAt]

/-- The `switch os.Args[2]` statement of `main`, lines 29 to 63.  `Args` is
`os.Args`; an index or slice expression out of range ends the run with
`indexPanic`, `checkErr` on an error with `errPanic`. -/
def dispatch (db : DB σ) (timeString : Time → String) (now : Time)
    (Args : List String) (s : σ) : Run σ :=
  match Args[2]? with
  | none => { stdout := [], calls := [], exit := .indexPanic, st := s }
  | some cmd =>
    if cmd = "add" then
      if Args.length ≠ 5 then fatal "Usage: users add USERNAME EMAIL" s
      else
        match Args[3]?, Args[4]? with
        | some username, some email =>
          match insert db now username email s with
          | (.error err, s1) =>
            { stdout := [], calls := [.insert username email], exit := .errPanic err, st := s1 }
          | (.ok user, s1) =>
            { stdout := [Sprintf timeString "New user with id %d was created successfully\n"
                [.int user.Id]],
              calls := [.insert username email], exit := .returned, st := s1 }
        | _, _ => { stdout := [], calls := [], exit := .indexPanic, st := s }
    else if cmd = "del" then
      if Args.length < 4 then fatal "Usage: users del ID..." s
      else
        -- `os.Args[3:]` is in range exactly when `3 ≤ len(os.Args)`
        if 3 ≤ Args.length then
          let ids := Args.drop 3
          match remove db ids s with
          | (.error err, s1) =>
            { stdout := [], calls := [.remove ids], exit := .errPanic err, st := s1 }
          | (.ok deletedUsers, s1) =>
            { stdout := [Sprintf timeString "%d users were deleted successfully\n"
                [.int deletedUsers]],
              calls := [.remove ids], exit := .returned, st := s1 }
        else { stdout := [], calls := [], exit := .indexPanic, st := s }
    else if cmd = "update" then
      if Args.length > 5 then fatal "Usage: users update ID EMAIL USERNAME" s
      else
        match Args[3]? with
        | none => { stdout := [], calls := [], exit := .indexPanic, st := s }
        | some id =>
          -- `os.Args[4:]` is in range exactly when `4 ≤ len(os.Args)`
          if 4 ≤ Args.length then
            let fields := Args.drop 4
            match update db id fields s with
            | (.error err, s1) =>
              { stdout := [], calls := [.update id fields], exit := .errPanic err, st := s1 }
            | (.ok user, s1) =>
              { stdout := [user.String timeString ++ "\n"],
                calls := [.update id fields], exit := .returned, st := s1 }
          else { stdout := [], calls := [], exit := .indexPanic, st := s }
    else if cmd = "all" then
      if Args.length > 3 then fatal "Usage: users all" s
      else
        match all db s with
        | (.error err, s1) => { stdout := [], calls := [.all], exit := .errPanic err, st := s1 }
        | (.ok users, s1) =>
          { stdout := "id | username | email | created_at\n" :: userLines timeString users,
            calls := [.all], exit := .returned, st := s1 }
    else { stdout := [], calls := [], exit := .returned, st := s }

end Dispatch

/-! ## Reading `db.ini` -/

/-- A loaded configuration file: its sections by name, each a list of keys
with their values. -/
abbrev IniFile := List (String × List (String × String))

/-- The call `cfg.GetSection(name)`: an error when there is no such section. -/
def GetSection (cfg : IniFile) (name : String) : Except Err (List (String × String)) :=
  match cfg.lookup name with
  | some section_ => .ok section_
  | none => .error ("section '" ++ name ++ "' does not exist")

/-- The call `section.GetKey(name)`: an error when there is no such key. -/
def GetKey (keys : List (String × String)) (name : String) : Except Err String :=
  match keys.lookup name with
  | some value => .ok value
  | none => .error ("error when getting key of section: key '" ++ name ++ "' not exists")

/-- The call `section.Key(name)`: the key's value, the empty string when there
is no such key. -/
def Key (keys : List (String × String)) (name : String) : String :=
  (keys.lookup name).getD ""

/-- The call `key.Validate(fn)`: `fn` applied to the key's value. -/
def Validate (value : String) (fn : String → String) : String :=
  fn value

/-- The structure `pg.Options`, with the four fields the program sets. -/
structure Options where
  User : String
  Password : String
  Database : String
  Addr : String
deriving DecidableEq, Repr

/-- The function `dbConnectOptions`.  `loaded` is the result of
`ini.Load("db.ini")`; an `error` result is the `panic(err)` of `checkErr`. -/
def dbConnectOptions (loaded : Except Err IniFile) : Except Err Options :=
  match loaded with
  | .error err => .error err
  | .ok cfg =>
    match GetSection cfg "postgres" with
    | .error err => .error err
    | .ok section_ =>
      match GetKey section_ "dbname" with
      | .error err => .error err
      | .ok dbname =>
        match GetKey section_ "user" with
        | .error err => .error err
        | .ok user =>
          match GetKey section_ "password" with
          | .error err => .error err
          | .ok password =>
            let addr := Validate (Key section_ "addr") fun in_ =>
              if in_.utf8ByteSize = 0 then "localhost:5432" else in_
            .ok { User := user, Password := password, Database := dbname, Addr := addr }

/-- The function `main`: connect with the options read from `db.ini`, create
the schema ignoring the error, then dispatch on `os.Args[2]`. -/
def main {σ : Type} (Connect : Options → DB σ) (timeString : Time → String) (now : Time)
    (loaded : Except Err IniFile) (Args : List String) (s : σ) : Run σ :=
  match dbConnectOptions loaded with
  | .error err => { stdout := [], calls := [], exit := .errPanic err, st := s }
  | .ok options =>
    let db := Connect options
    let s1 := (createSchema db s).2
    dispatch db timeString now Args s1

/-! ## The storage layer

The database server and the `go-pg` library that talks to it are outside this
repository.  The definitions of this section follow the specification's
description of the storage boundary (sections 3, 4.2 to 4.5 and 6): one table
of users, ids assigned by the storage, `username` and `email` unique, ids given
as strings matched to integer ids by the storage layer. -/

/-- Modelled from the spec: the state of the storage layer (the `users` table of
the database, not in the sources): its rows in storage order and the id the
next inserted row gets. -/
structure Store where
  rows : List User
  nextId : Int
deriving DecidableEq, Repr

/-- Modelled from the spec: the rows selected by one `Where` clause ("the
target row is selected by exact `id` match", "rows whose `id` is a member of
the given set"; the execution of conditions is the storage layer's, not in the
sources).  `parseId` is the storage layer's string-to-integer reading of an
id; a string without one is a storage failure. -/
def condRows (parseId : String → Option Int) (c : String × Param) :
    Except Err (User → Bool) :=
  if c.1 = "id = ?" then
    match c.2 with
    | .str id =>
      match parseId id with
      | some k => .ok fun u => decide (u.Id = k)
      | none => .error "invalid input syntax for integer"
    | .In _ => .error "unsupported parameter"
  else if c.1 = "id IN (?)" then
    match c.2 with
    | .In ids =>
      if ids.all fun id => (parseId id).isSome then
        .ok fun u => ids.any fun id => decide (parseId id = some u.Id)
      else .error "invalid input syntax for integer"
    | .str _ => .error "unsupported parameter"
  else .error "unsupported condition"

/-- Modelled from the spec: the rows selected by all `Where` clauses of a
statement together (the storage layer's, not in the sources). -/
def whereRows (parseId : String → Option Int) :
    List (String × Param) → Except Err (User → Bool)
  | [] => .ok fun _ => true
  | c :: cs =>
    match condRows parseId c, whereRows parseId cs with
    | .ok p, .ok q => .ok fun u => p u && q u
    | .error err, _ => .error err
    | _, .error err => .error err

/-- Modelled from the spec: the effect of one item of a SET clause on a row
(section 6, `UPDATE ... SET ...`; the execution of the clause is the storage
layer's, not in the sources): the named column gets the value, `id` is never
assigned. -/
def setRow (a : SetItem) : Except Err (User → User) :=
  match a with
  | .expr e (.str v) =>
    if e = "email = ?" then .ok fun u => { u with Email := v }
    else if e = "username = ?" then .ok fun u => { u with Username := v }
    else .error "unsupported assignment"
  | .expr _ (.In _) => .error "unsupported parameter"
  | .column name (.text v) =>
    if name = "email" then .ok fun u => { u with Email := v }
    else if name = "username" then .ok fun u => { u with Username := v }
    else .error "unsupported assignment"
  | .column name (.timestamp t) =>
    if name = "created_at" then .ok fun u => { u with CreatedAt := t }
    else .error "unsupported assignment"

/-- Modelled from the spec: the effect of the items of a SET clause, applied in
order (the storage layer's, not in the sources). -/
def setRows : List SetItem → Except Err (User → User)
  | [] => .ok fun u => u
  | a :: as =>
    match setRow a, setRows as with
    | .ok f, .ok g => .ok fun u => g (f u)
    | .error err, _ => .error err
    | _, .error err => .error err

/-- Modelled from the spec: whether `username` and `email` are unique across the
rows ("uniqueness is enforced by the storage layer"; not in the sources). -/
def uniqueRows (rows : List User) : Bool :=
  decide ((rows.map fun u => u.Username).Nodup) && decide ((rows.map fun u => u.Email).Nodup)

/-- Modelled from the spec: `INSERT`, section 6 (the storage layer's, not in the
sources): the row is stored under the next id; a collision on `username` or
`email` is a storage error and stores nothing. -/
def execInsert (u : User) (st : Store) : Except Err User × Store :=
  let row : User := { u with Id := st.nextId }
  if uniqueRows (st.rows ++ [row]) then
    (.ok row, { rows := st.rows ++ [row], nextId := st.nextId + 1 })
  else (.error "duplicate key value violates unique constraint", st)

/-- Modelled from the spec: `DELETE WHERE id IN (set)`, section 6 (the storage
layer's, not in the sources): the selected rows are removed and their number
is the answer. -/
def execDelete (parseId : String → Option Int) (q : Query) (st : Store) :
    Except Err Int × Store :=
  match whereRows parseId q.conds with
  | .error err => (.error err, st)
  | .ok p =>
    (.ok ((st.rows.filter p).length : Int), { st with rows := st.rows.filter fun u => !p u })

/-- Modelled from the spec: `UPDATE ... SET ... WHERE id = ? RETURNING *`,
section 6 (the storage layer's, not in the sources): the items of the
statement's SET clause are applied to the selected rows, a collision on
`username` or `email` is a storage error that changes nothing, and the answer
is the selected row as it is after the update.  A statement with an empty
SET clause is a storage error.  `noRow` is the storage layer's answer when
no row is selected, which the specification leaves to the storage layer. -/
def execUpdate (parseId : String → Option Int) (noRow : Except Err User) (q : Query)
    (st : Store) : Except Err User × Store :=
  match whereRows parseId q.conds, setRows q.updateSet with
  | .error err, _ => (.error err, st)
  | _, .error err => (.error err, st)
  | .ok p, .ok f =>
    if q.updateSet = [] then (.error "syntax error at or near \"WHERE\"", st) else
    let rows := st.rows.map fun u => if p u then f u else u
    if uniqueRows rows then
      match st.rows.find? p with
      | some u => (.ok (f u), { st with rows := rows })
      | none => (noRow, st)
    else (.error "duplicate key value violates unique constraint", st)

/-- Modelled from the spec: `SELECT *`, section 6 (the storage layer's, not in
the sources): every row, in storage order. -/
def execSelect (parseId : String → Option Int) (q : Query) (st : Store) :
    Except Err (List User) × Store :=
  match whereRows parseId q.conds with
  | .error err => (.error err, st)
  | .ok p => (.ok (st.rows.filter p), st)

/-- Modelled from the spec: the storage handle over a `Store` (the storage
layer's, not in the sources).  Creating the table again is the expected
"already exists" failure. -/
def tableDB (parseId : String → Option Int) (noRow : Except Err User) : DB Store where
  Insert := execInsert
  Delete := execDelete parseId
  Update := execUpdate parseId noRow
  Select := execSelect parseId
  CreateTable := fun st => (some "relation \"users\" already exists", st)

/-- A reading of decimal id strings, for the examples: the digits' value,
`none` for an empty string or one with another character. -/
def decimalId (s : String) : Option Int :=
  if s.data = [] then none
  else (s.data.foldl (fun acc c => match acc, digit? c with
    | some n, some d => some (10 * n + d)
    | _, _ => none) (some 0)).map Int.ofNat

/-- The change a row selected by `update id fields` undergoes: by the number of
fields, the three columns of the zero-valued `user`, `email` alone, or `email`
and `username`. -/
def updatedRow (fields : List String) (u : User) : User :=
  match fields with
  | [] => { u with Username := "", Email := "", CreatedAt := ⟨0⟩ }
  | [email] => { u with Email := email }
  | email :: username :: _ => { u with Email := email, Username := username }

/-! ## Observations on a run -/

/-- The run printed `text` with `fatal` and nothing else, ended with
`os.Exit(1)` and called no handler. -/
def Run.usageExit {σ : Type} (r : Run σ) (text : String) : Prop :=
  r.stdout = [text ++ "\n"] ∧ r.exit = .status 1 ∧ r.calls = []

/-- A rendering of instants for the examples: the nanosecond count. -/
def exampleTimeString (t : Time) : String := toString t.nanos

/-- A storage call, as a handle that keeps a log records it. -/
inductive StorageCall where
  | Insert (u : User)
  | Delete (q : Query)
  | Update (q : Query)
  | Select (q : Query)
  | CreateTable
deriving DecidableEq, Repr

/-- A storage handle for the examples, whose state is the log of the calls
made on it: it holds `rows`, answers `Select` with them, gives an inserted
record the id 1, and finds no row to delete or update. -/
def logDB (rows : List User) : DB (List StorageCall) where
  Insert := fun u log => (.ok { u with Id := 1 }, log ++ [.Insert u])
  Delete := fun q log => (.ok 0, log ++ [.Delete q])
  Update := fun q log => (.error "pg: no rows in result set", log ++ [.Update q])
  Select := fun q log => (.ok rows, log ++ [.Select q])
  CreateTable := fun log => (none, log ++ [.CreateTable])

/-- A storage handle over a `Store` for the examples: decimal ids, and "no
rows" as the answer of an update that selects no row. -/
def exampleDB : DB Store := tableDB decimalId (.error "pg: no rows in result set")

/-! ## Theorems -/

section DispatchTheorems

variable {σ : Type}

theorem update_eq (db : DB σ) (id : String) (fields : List String) (s : σ) :
    update db id fields s = db.Update (updateQuery id fields) s := by
  unfold update
  rcases db.Update (updateQuery id fields) s with ⟨_ | _, s1⟩ <;> rfl

theorem remove_eq (db : DB σ) (ids : List String) (s : σ) :
    remove db ids s = db.Delete (removeQuery ids) s := by
  unfold remove
  rcases db.Delete (removeQuery ids) s with ⟨_ | _, s1⟩ <;> rfl

theorem all_eq (db : DB σ) (s : σ) : all db s = db.Select (Query.Model (.slice [])) s := by
  unfold all
  rcases db.Select (Query.Model (.slice [])) s with ⟨_ | _, s1⟩ <;> rfl

/-- C10: the dispatcher ends in an out-of-range panic on `os.Args` exactly when
the list has fewer than 3 elements, or has exactly 3 and the element at index
2 is `update`. -/
theorem dispatch_indexPanic_iff (db : DB σ) (timeString : Time → String) (now : Time)
    (Args : List String) (s : σ) :
    (dispatch db timeString now Args s).exit = .indexPanic ↔
      (Args.length < 3 ∨ (Args.length = 3 ∧ Args[2]? = some "update")) := by
  rcases Args with _ | ⟨a0, _ | ⟨a1, _ | ⟨cmd, rest⟩⟩⟩
  · simp [dispatch]
  · simp [dispatch]
  · simp [dispatch]
  · simp only [dispatch, List.getElem?_cons_succ, List.getElem?_cons_zero, List.length_cons]
    by_cases hadd : cmd = "add"
    · subst hadd
      rcases rest with _ | ⟨a3, _ | ⟨a4, _ | ⟨a5, rest⟩⟩⟩ <;> simp [fatal]
      rcases insert db now a3 a4 s with ⟨_ | _, s1⟩ <;> simp
    by_cases hdel : cmd = "del"
    · subst hdel
      rcases rest with _ | ⟨a3, rest⟩ <;> simp [fatal]
      have h4 : ¬ (rest.length + 1 + 1 + 1 + 1 < 4) := by omega
      have h3 : ¬ (rest.length + 1 + 1 + 1 + 1 < 3) := by omega
      rcases remove db (a3 :: rest) s with ⟨_ | _, s1⟩ <;> simp [h3, h4]
    by_cases hupd : cmd = "update"
    · subst hupd
      rcases rest with _ | ⟨a3, _ | ⟨a4, _ | ⟨a5, rest⟩⟩⟩ <;> simp [fatal]
      · rcases update db a3 [] s with ⟨_ | _, s1⟩ <;> simp
      · rcases update db a3 [a4] s with ⟨_ | _, s1⟩ <;> simp
    by_cases hall : cmd = "all"
    · subst hall
      rcases rest with _ | ⟨a3, rest⟩ <;> simp [fatal]
      rcases all db s with ⟨_ | _, s1⟩ <;> simp
    · simp [hadd, hdel, hupd, hall]

theorem userString_data (timeString : Time → String) (u : User) :
    (u.String timeString).data =
      'U' :: 's' :: 'e' :: 'r' :: '<' :: ((toString u.Id).data ++ ' ' :: (u.Username.data ++
        ' ' :: (u.Email.data ++ ' ' :: ((timeString u.CreatedAt).data ++ ['>'])))) := by
  simp [User.String, Sprintf, sprintfAux, digit?, fmtValue, Value.accepts, Value.text, pad]

theorem userString_ne_usage (timeString : Time → String) (u : User) :
    u.String timeString ++ "\n" ≠ "Usage: users update ID EMAIL USERNAME\n" := by
  intro h
  have hd := congrArg String.data h
  rw [String.data_append, userString_data] at hd
  simp at hd

/-- C1: for an argument list whose element at index 2 is `add`, `del`, `update`
or `all`, the dispatcher prints that command's usage line, exits with status
1 and calls no handler exactly when the argument count breaks the command's
precondition (`add`: not 5; `del`: below 4; `update`: above 5; `all`: above
3); a run that exits with status 1 leaves the storage state as it was. -/
theorem dispatch_usage_iff (db : DB σ) (timeString : Time → String) (now : Time)
    (Args : List String) (s : σ) :
    (Args[2]? = some "add" →
      ((dispatch db timeString now Args s).usageExit "Usage: users add USERNAME EMAIL" ↔
        Args.length ≠ 5)) ∧
    (Args[2]? = some "del" →
      ((dispatch db timeString now Args s).usageExit "Usage: users del ID..." ↔
        Args.length < 4)) ∧
    (Args[2]? = some "update" →
      ((dispatch db timeString now Args s).usageExit "Usage: users update ID EMAIL USERNAME" ↔
        Args.length > 5)) ∧
    (Args[2]? = some "all" →
      ((dispatch db timeString now Args s).usageExit "Usage: users all" ↔
        Args.length > 3)) ∧
    ((dispatch db timeString now Args s).exit = .status 1 →
      (dispatch db timeString now Args s).st = s) := by
  rcases Args with _ | ⟨a0, _ | ⟨a1, _ | ⟨cmd, rest⟩⟩⟩
  · simp [dispatch]
  · simp [dispatch]
  · simp [dispatch]
  · simp only [dispatch, List.getElem?_cons_succ, List.getElem?_cons_zero, List.length_cons,
      Option.some.injEq, Run.usageExit]
    refine ⟨?_, ?_, ?_, ?_, ?_⟩
    · rintro rfl
      rcases rest with _ | ⟨a3, _ | ⟨a4, _ | ⟨a5, rest⟩⟩⟩ <;> simp [fatal]
      rcases insert db now a3 a4 s with ⟨_ | _, s1⟩ <;> simp
    · rintro rfl
      rcases rest with _ | ⟨a3, rest⟩ <;> simp [fatal]
      have h4 : ¬ (rest.length + 1 + 1 + 1 + 1 < 4) := by omega
      rcases remove db (a3 :: rest) s with ⟨_ | _, s1⟩ <;> simp [h4]
    · rintro rfl
      rcases rest with _ | ⟨a3, _ | ⟨a4, _ | ⟨a5, rest⟩⟩⟩ <;> simp [fatal]
      · rcases update db a3 [] s with ⟨_ | _, s1⟩ <;> simp
      · rcases update db a3 [a4] s with ⟨_ | _, s1⟩ <;> simp
    · rintro rfl
      rcases rest with _ | ⟨a3, rest⟩ <;> simp [fatal]
      rcases all db s with ⟨_ | _, s1⟩ <;> simp
    · by_cases hadd : cmd = "add"
      · subst hadd
        rcases rest with _ | ⟨a3, _ | ⟨a4, _ | ⟨a5, rest⟩⟩⟩ <;> simp [fatal]
        rcases insert db now a3 a4 s with ⟨_ | _, s1⟩ <;> simp
      by_cases hdel : cmd = "del"
      · subst hdel
        rcases rest with _ | ⟨a3, rest⟩ <;> simp [fatal]
        have h4 : ¬ (rest.length + 1 + 1 + 1 + 1 < 4) := by omega
        rcases remove db (a3 :: rest) s with ⟨_ | _, s1⟩ <;> simp [h4]
      by_cases hupd : cmd = "update"
      · subst hupd
        rcases rest with _ | ⟨a3, _ | ⟨a4, _ | ⟨a5, rest⟩⟩⟩ <;> simp [fatal]
        · rcases update db a3 [] s with ⟨_ | _, s1⟩ <;> simp
        · rcases update db a3 [a4] s with ⟨_ | _, s1⟩ <;> simp
      by_cases hall : cmd = "all"
      · subst hall
        rcases rest with _ | ⟨a3, rest⟩ <;> simp [fatal]
        rcases all db s with ⟨_ | _, s1⟩ <;> simp
      · simp [hadd, hdel, hupd, hall]

/-- Witness for C1: `users pg add bob` (4 arguments) prints the usage line of
`add`, exits with status 1 and calls no handler. -/
theorem dispatch_usage_iff_witness :
    (["users", "pg", "add", "bob"] : List String)[2]? = some "add" ∧
    (dispatch (logDB []) exampleTimeString ⟨0⟩ ["users", "pg", "add", "bob"]
      []).usageExit "Usage: users add USERNAME EMAIL" :=
  ⟨rfl, ((dispatch_usage_iff (logDB []) exampleTimeString ⟨0⟩ ["users", "pg", "add", "bob"]
    []).1 rfl).2 (by decide)⟩

/-- C2, as stated, fails: with exactly 3 arguments and sub-command `update`
the count is at most 5, yet there is no argument at index 3, no handler is
called and the run ends in an out-of-range panic. -/
theorem dispatch_update_three_args :
    (["users", "pg", "update"] : List String)[2]? = some "update" ∧
    (["users", "pg", "update"] : List String).length ≤ 5 ∧
    (["users", "pg", "update"] : List String)[3]? = none ∧
    (dispatch (logDB []) exampleTimeString ⟨0⟩ ["users", "pg", "update"] []).calls = [] ∧
    (dispatch (logDB []) exampleTimeString ⟨0⟩ ["users", "pg", "update"] []).exit
      = .indexPanic := by
  refine ⟨rfl, by decide, rfl, ?_, ?_⟩ <;> simp [dispatch]

/-- C2, amended: for an argument list whose element at index 2 is `update` and
whose count is 4 or 5, the dispatcher calls `update` once, with the argument
at index 3 as id and the zero or one arguments from index 4 on as fields;
the usage line is not printed, and the run ends by returning after printing
the user, or by the panic of `checkErr` on the error `update` returned. -/
theorem dispatch_update_reaches (db : DB σ) (timeString : Time → String) (now : Time)
    (Args : List String) (s : σ) (hcmd : Args[2]? = some "update")
    (hlo : 4 ≤ Args.length) (hhi : Args.length ≤ 5) :
    ∃ id, Args[3]? = some id ∧ (Args.drop 4).length ≤ 1 ∧
      (dispatch db timeString now Args s).calls = [.update id (Args.drop 4)] ∧
      (dispatch db timeString now Args s).st = (update db id (Args.drop 4) s).2 ∧
      "Usage: users update ID EMAIL USERNAME\n" ∉ (dispatch db timeString now Args s).stdout ∧
      (match (update db id (Args.drop 4) s).1 with
        | .ok user =>
          (dispatch db timeString now Args s).exit = .returned ∧
          (dispatch db timeString now Args s).stdout = [user.String timeString ++ "\n"]
        | .error err =>
          (dispatch db timeString now Args s).exit = .errPanic err ∧
          (dispatch db timeString now Args s).stdout = []) := by
  rcases Args with _ | ⟨a0, _ | ⟨a1, _ | ⟨cmd, _ | ⟨a3, rest⟩⟩⟩⟩
  · simp at hlo
  · simp at hlo
  · simp at hlo
  · simp at hlo
  · simp only [List.getElem?_cons_succ, List.getElem?_cons_zero, Option.some.injEq] at hcmd
    subst hcmd
    refine ⟨a3, by simp, ?_⟩
    rcases rest with _ | ⟨a4, _ | ⟨a5, rest⟩⟩
    · simp only [dispatch]
      rcases hupd : update db a3 [] s with ⟨_ | user, s1⟩
      · simp [hupd]
      · simpa [hupd] using (userString_ne_usage timeString user).symm
    · simp only [dispatch]
      rcases hupd : update db a3 [a4] s with ⟨_ | user, s1⟩
      · simp [hupd]
      · simpa [hupd] using (userString_ne_usage timeString user).symm
    · simp at hhi

/-- Witness for C2 (amended): `users pg update 1` has 4 arguments. -/
theorem dispatch_update_reaches_witness :
    ∃ id, (["users", "pg", "update", "1"] : List String)[3]? = some id ∧
      (List.drop 4 ["users", "pg", "update", "1"]).length ≤ 1 ∧
      (dispatch (logDB []) exampleTimeString ⟨0⟩ ["users", "pg", "update", "1"] []).calls
        = [.update id (List.drop 4 ["users", "pg", "update", "1"])] ∧
      (dispatch (logDB []) exampleTimeString ⟨0⟩ ["users", "pg", "update", "1"] []).st
        = (update (logDB []) id (List.drop 4 ["users", "pg", "update", "1"]) []).2 ∧
      "Usage: users update ID EMAIL USERNAME\n" ∉
        (dispatch (logDB []) exampleTimeString ⟨0⟩ ["users", "pg", "update", "1"] []).stdout ∧
      (match (update (logDB []) id (List.drop 4 ["users", "pg", "update", "1"]) []).1 with
        | .ok user =>
          (dispatch (logDB []) exampleTimeString ⟨0⟩ ["users", "pg", "update", "1"] []).exit
            = .returned ∧
          (dispatch (logDB []) exampleTimeString ⟨0⟩ ["users", "pg", "update", "1"] []).stdout
            = [user.String exampleTimeString ++ "\n"]
        | .error err =>
          (dispatch (logDB []) exampleTimeString ⟨0⟩ ["users", "pg", "update", "1"] []).exit
            = .errPanic err ∧
          (dispatch (logDB []) exampleTimeString ⟨0⟩ ["users", "pg", "update", "1"] []).stdout
            = []) :=
  dispatch_update_reaches (logDB []) exampleTimeString ⟨0⟩ ["users", "pg", "update", "1"] []
    rfl (by decide) (by decide)

/-- C6: for an argument list whose element at index 2 is none of `add`, `del`,
`update`, `all`, the dispatcher calls no handler, prints nothing, leaves the
storage state as it was and `main` returns (exit status 0). -/
theorem dispatch_unknown (db : DB σ) (timeString : Time → String) (now : Time)
    (Args : List String) (s : σ) (cmd : String) (hcmd : Args[2]? = some cmd)
    (hadd : cmd ≠ "add") (hdel : cmd ≠ "del") (hupd : cmd ≠ "update") (hall : cmd ≠ "all") :
    (dispatch db timeString now Args s).calls = [] ∧
    (dispatch db timeString now Args s).stdout = [] ∧
    (dispatch db timeString now Args s).exit = .returned ∧
    (dispatch db timeString now Args s).st = s := by
  simp [dispatch, hcmd, hadd, hdel, hupd, hall]

/-- Witness for C6: `users pg list extra` has an unknown sub-command. -/
theorem dispatch_unknown_witness :
    (dispatch (logDB []) exampleTimeString ⟨0⟩ ["users", "pg", "list", "extra"] []).calls = [] ∧
    (dispatch (logDB []) exampleTimeString ⟨0⟩ ["users", "pg", "list", "extra"] []).stdout = [] ∧
    (dispatch (logDB []) exampleTimeString ⟨0⟩ ["users", "pg", "list", "extra"] []).exit
      = .returned ∧
    (dispatch (logDB []) exampleTimeString ⟨0⟩ ["users", "pg", "list", "extra"] []).st
      = [] :=
  dispatch_unknown (logDB []) exampleTimeString ⟨0⟩ ["users", "pg", "list", "extra"] []
    "list" rfl (by decide) (by decide) (by decide) (by decide)

/-- C9: `insert` makes one storage call, `db.Insert`, on the record whose
`Username` and `Email` are the two strings as given, whose `Id` is zero and
whose `CreatedAt` is the clock reading; and for an argument list of exactly 5
elements with sub-command `add` the dispatcher calls `insert` once, with the
argument at index 3 as username and the argument at index 4 as email. -/
theorem insert_record (db : DB σ) (timeString : Time → String) (now : Time) (s : σ) :
    (∀ username email : String,
      insert db now username email s =
        db.Insert { Id := 0, Username := username, Email := email, CreatedAt := now } s) ∧
    (∀ Args : List String, Args.length = 5 → Args[2]? = some "add" →
      ∃ username email, Args[3]? = some username ∧ Args[4]? = some email ∧
        (dispatch db timeString now Args s).calls = [.insert username email] ∧
        (dispatch db timeString now Args s).st =
          (db.Insert { Id := 0, Username := username, Email := email, CreatedAt := now } s).2) := by
  refine ⟨fun _ _ => rfl, ?_⟩
  intro Args hlen hcmd
  rcases Args with _ | ⟨a0, _ | ⟨a1, _ | ⟨cmd, _ | ⟨a3, _ | ⟨a4, _ | ⟨a5, rest⟩⟩⟩⟩⟩⟩ <;>
    simp at hlen
  simp only [List.getElem?_cons_succ, List.getElem?_cons_zero, Option.some.injEq] at hcmd
  subst hcmd
  refine ⟨a3, a4, by simp, by simp, ?_⟩
  simp only [dispatch]
  rcases hins : insert db now a3 a4 s with ⟨_ | user, s1⟩ <;>
    simp [hins] <;> simp [insert, insertRecord] at hins <;> simp [hins]

/-- Witness for C9: `users pg add " bob " bob@example.com` at clock reading 7;
the storage sees one call, the insertion of the record with the strings as
given, id 0 and creation time 7. -/
theorem insert_record_witness :
    (∃ username email,
      (["users", "pg", "add", " bob ", "bob@example.com"] : List String)[3]? = some username ∧
      (["users", "pg", "add", " bob ", "bob@example.com"] : List String)[4]? = some email ∧
      (dispatch (logDB []) exampleTimeString ⟨7⟩ ["users", "pg", "add", " bob ", "bob@example.com"]
        []).calls = [.insert username email] ∧
      (dispatch (logDB []) exampleTimeString ⟨7⟩ ["users", "pg", "add", " bob ", "bob@example.com"]
        []).st =
        ((logDB []).Insert { Id := 0, Username := username, Email := email, CreatedAt := ⟨7⟩ }
          []).2) ∧
    (insert (logDB []) ⟨7⟩ " bob " "bob@example.com" []).2 =
      [.Insert ⟨0, " bob ", "bob@example.com", ⟨7⟩⟩] :=
  ⟨(insert_record (logDB []) exampleTimeString ⟨7⟩ []).2
    ["users", "pg", "add", " bob ", "bob@example.com"] rfl rfl,
   ((insert_record (logDB []) exampleTimeString ⟨7⟩ []).1 " bob " "bob@example.com").symm ▸ rfl⟩

/-- C3, the code at the failing input and beside it: for every id and every
list of fields the statement `update` sends selects by the single condition
`id = ?` bound to the id and asks for all columns back (`*`); its SET clause
is `email` bound to the first field for one field, and that followed by
`username` bound to the second for two or more; but for no field it is not
empty: no `Set` call was made, so the three columns of the zero-valued `user`
are written, `username` and `email` as empty strings and `created_at` as the
zero time. -/
theorem update_statement_set (db : DB σ) (id : String) (fields : List String) (s : σ) :
    update db id fields s = db.Update (updateQuery id fields) s ∧
    (updateQuery id fields).conds = [("id = ?", .str id)] ∧
    (updateQuery id fields).returning = ["*"] ∧
    (updateQuery id fields).updateSet =
      (match fields with
        | [] =>
          [.column "username" (.text ""), .column "email" (.text ""),
           .column "created_at" (.timestamp ⟨0⟩)]
        | [email] => [.expr "email = ?" (.str email)]
        | email :: username :: _ =>
          [.expr "email = ?" (.str email), .expr "username = ?" (.str username)]) ∧
    (updateQuery id []).updateSet ≠ [] := by
  refine ⟨update_eq db id fields s, ?_, ?_, ?_, ?_⟩
  · rcases fields with _ | ⟨e, _ | ⟨u, rest⟩⟩ <;>
      simp [updateQuery, Query.Model, Query.Set, Query.Where, Query.Returning]
  · rcases fields with _ | ⟨e, _ | ⟨u, rest⟩⟩ <;>
      simp [updateQuery, Query.Model, Query.Set, Query.Where, Query.Returning]
  · rcases fields with _ | ⟨e, _ | ⟨u, rest⟩⟩ <;>
      simp [updateQuery, Query.Model, Query.Set, Query.Where, Query.Returning,
        Query.updateSet, User.zero]
  · simp [updateQuery, Query.Model, Query.Set, Query.Where, Query.Returning,
      Query.updateSet]

end DispatchTheorems

/-! ### Configuration -/

theorem utf8ByteSize_eq_zero_iff (v : String) : v.utf8ByteSize = 0 ↔ v = "" := by
  constructor
  · intro h
    rcases v with ⟨cs⟩
    cases cs with
    | nil => rfl
    | cons c cs =>
      have hc : 0 < c.utf8Size := Char.utf8Size_pos c
      simp [String.utf8ByteSize, String.utf8ByteSize.go] at h
      omega
  · rintro rfl
    rfl

/-- C7: when `db.ini` loads and its `postgres` section has `dbname`, `user` and
`password`, `dbConnectOptions` returns options whose address is
`localhost:5432` when the section has no `addr` key or an empty one, and the
configured value unchanged otherwise. -/
theorem dbConnectOptions_addr (cfg : IniFile) (section_ : List (String × String))
    (dbname user password : String)
    (hsec : cfg.lookup "postgres" = some section_)
    (hdb : section_.lookup "dbname" = some dbname)
    (huser : section_.lookup "user" = some user)
    (hpw : section_.lookup "password" = some password) :
    ∃ options, dbConnectOptions (.ok cfg) = .ok options ∧
      options.Database = dbname ∧ options.User = user ∧ options.Password = password ∧
      options.Addr =
        (match section_.lookup "addr" with
          | none => "localhost:5432"
          | some value => if value = "" then "localhost:5432" else value) := by
  refine ⟨_, by simp [dbConnectOptions, GetSection, GetKey, hsec, hdb, huser, hpw]; rfl,
    rfl, rfl, rfl, ?_⟩
  simp only [Validate, Key]
  cases haddr : section_.lookup "addr" with
  | none => simp [utf8ByteSize_eq_zero_iff]
  | some value => simp [utf8ByteSize_eq_zero_iff]

/-- Witness for C7: a section with an empty `addr` key. -/
theorem dbConnectOptions_addr_witness :
    ∃ options,
      dbConnectOptions (.ok [("postgres",
        [("dbname", "users"), ("user", "pg"), ("password", "secret"), ("addr", "")])])
        = .ok options ∧
      options.Database = "users" ∧ options.User = "pg" ∧ options.Password = "secret" ∧
      options.Addr =
        (match List.lookup "addr"
            [("dbname", "users"), ("user", "pg"), ("password", "secret"), ("addr", "")] with
          | none => "localhost:5432"
          | some value => if value = "" then "localhost:5432" else value) :=
  dbConnectOptions_addr
    [("postgres", [("dbname", "users"), ("user", "pg"), ("password", "secret"), ("addr", "")])]
    [("dbname", "users"), ("user", "pg"), ("password", "secret"), ("addr", "")]
    "users" "pg" "secret" (by decide) (by decide) (by decide) (by decide)

/-! ### Listing -/

section ListTheorems

variable {σ : Type}

theorem userLine_eq (timeString : Time → String) (user : User) :
    Sprintf timeString "%3v | %8v | %15v | %20v\n"
      [.int user.Id, .str user.Username, .str user.Email, .time user.CreatedAt] =
    String.mk (pad 3 (toString user.Id).data ++ " | ".data ++ pad 8 user.Username.data ++
      " | ".data ++ pad 15 user.Email.data ++ " | ".data ++
      pad 20 (timeString user.CreatedAt).data ++ ['\n']) := by
  simp [Sprintf, sprintfAux, digit?, fmtValue, Value.accepts, Value.text]

/-- C8: when `all` returns a sequence of users (the empty one included), the
`all` command prints the header line and then one line per user in the
sequence's order; in a line the id, username, email and creation time are
separated by ` | `, each with spaces in front up to a width of 3, 8, 15 and
20 characters, and a value of at least that width is printed in full with
nothing in front. -/
theorem dispatch_all_prints (db : DB σ) (timeString : Time → String) (now : Time)
    (a0 a1 : String) (s s1 : σ) (users : List User) (hall : all db s = (.ok users, s1)) :
    (dispatch db timeString now [a0, a1, "all"] s).stdout =
      "id | username | email | created_at\n" ::
        users.map (fun user => String.mk (
          (List.replicate (3 - (toString user.Id).length) ' ' ++ (toString user.Id).data) ++
          " | ".data ++
          (List.replicate (8 - user.Username.length) ' ' ++ user.Username.data) ++
          " | ".data ++
          (List.replicate (15 - user.Email.length) ' ' ++ user.Email.data) ++
          " | ".data ++
          (List.replicate (20 - (timeString user.CreatedAt).length) ' ' ++
            (timeString user.CreatedAt).data) ++
          ['\n'])) ∧
    (dispatch db timeString now [a0, a1, "all"] s).exit = .returned ∧
    (∀ (width : Nat) (text : List Char),
      (pad width text).length = max width text.length ∧
      (width ≤ text.length → pad width text = text)) := by
  refine ⟨?_, ?_, ?_⟩
  · simp only [dispatch, List.getElem?_cons_succ, List.getElem?_cons_zero, hall, userLines]
    simp only [userLine_eq, pad]
    rfl
  · simp [dispatch, hall]
  · intro width text
    constructor
    · simp only [pad, List.length_append, List.length_replicate]
      omega
    · intro h
      simp [pad, Nat.sub_eq_zero_of_le h]

/-- Witness for C8: a table of two users, the second with a username longer
than 8 characters. -/
theorem dispatch_all_prints_witness :
    (dispatch
      (logDB [⟨1, "alice", "alice@example.com", ⟨5⟩⟩, ⟨12, "bartholomew", "b@x.org", ⟨77⟩⟩])
      exampleTimeString ⟨0⟩ ["users", "pg", "all"] []).stdout =
      ["id | username | email | created_at\n",
       "  1 |    alice | alice@example.com |                    5\n",
       " 12 | bartholomew |         b@x.org |                   77\n"] :=
  (dispatch_all_prints
    (logDB [⟨1, "alice", "alice@example.com", ⟨5⟩⟩, ⟨12, "bartholomew", "b@x.org", ⟨77⟩⟩])
    exampleTimeString ⟨0⟩ "users" "pg" [] [.Select (Query.Model (.slice []))]
    [⟨1, "alice", "alice@example.com", ⟨5⟩⟩, ⟨12, "bartholomew", "b@x.org", ⟨77⟩⟩]
    (by rfl)).1.trans (by decide)

end ListTheorems

/-! ### Deleting and updating rows, over the storage layer of the specification -/

theorem whereRows_removeQuery (parseId : String → Option Int) (ids : List String) :
    whereRows parseId (removeQuery ids).conds =
      if ids.all (fun id => (parseId id).isSome) then
        .ok (fun u => (ids.any fun id => decide (parseId id = some u.Id)) && true)
      else .error "invalid input syntax for integer" := by
  simp only [removeQuery, Query.Model, Query.Where, List.nil_append, whereRows, condRows]
  split_ifs <;> simp_all

theorem remove_tableDB (parseId : String → Option Int) (noRow : Except Err User)
    (ids : List String) (st : Store) :
    remove (tableDB parseId noRow) ids st =
      if ids.all (fun id => (parseId id).isSome) then
        (.ok ((st.rows.filter fun u => ids.any fun id => decide (parseId id = some u.Id)).length : Int),
          { st with rows := st.rows.filter fun u =>
              !(ids.any fun id => decide (parseId id = some u.Id)) })
      else (.error "invalid input syntax for integer", st) := by
  rw [remove_eq]
  simp only [tableDB, execDelete, whereRows_removeQuery]
  split_ifs <;> simp

/-- C5: over the storage layer of the specification, `remove` on a non-empty
list of id strings succeeds exactly when every id has an integer reading; a
successful `remove` leaves exactly the rows whose id is not the reading of a
listed id, unchanged and in their order, answers with the number of rows it
deleted (no row need match), and a second `remove` with the same ids on the
resulting table answers 0 and changes nothing. -/
theorem remove_deletes_members (parseId : String → Option Int) (noRow : Except Err User)
    (ids : List String) (st : Store) (_hne : ids ≠ []) :
    ((∀ id ∈ ids, (parseId id).isSome) ↔
      ∃ n st', remove (tableDB parseId noRow) ids st = (.ok n, st')) ∧
    (∀ n st', remove (tableDB parseId noRow) ids st = (.ok n, st') →
      st'.rows = st.rows.filter (fun u => !(ids.any fun id => decide (parseId id = some u.Id))) ∧
      (∀ u, u ∈ st'.rows ↔ u ∈ st.rows ∧ ¬ ∃ id ∈ ids, parseId id = some u.Id) ∧
      st'.nextId = st.nextId ∧
      n = ((st.rows.filter fun u => ids.any fun id => decide (parseId id = some u.Id)).length : Int) ∧
      n = (st.rows.length : Int) - (st'.rows.length : Int) ∧
      remove (tableDB parseId noRow) ids st' = (.ok 0, st')) := by
  have hlen : ∀ (p : User → Bool) (l : List User),
      ((l.filter p).length : Int) = (l.length : Int) - ((l.filter fun u => !p u).length : Int) := by
    intro p l
    induction l with
    | nil => simp
    | cons a l ih =>
      by_cases hp : p a <;> simp [List.filter_cons, hp] <;> omega
  rw [remove_tableDB]
  by_cases hall : ids.all (fun id => (parseId id).isSome) = true
  · simp only [hall, if_true]
    refine ⟨⟨fun _ => ⟨_, _, rfl⟩, fun _ => by simpa using hall⟩, ?_⟩
    intro n st' h
    simp only [Prod.mk.injEq, Except.ok.injEq] at h
    obtain ⟨hn, hst⟩ := h
    subst hn hst
    refine ⟨rfl, ?_, rfl, rfl, hlen _ _, ?_⟩
    · intro u
      simp [List.mem_filter]
    · rw [remove_tableDB]
      simp only [hall, if_true, Prod.mk.injEq, Except.ok.injEq]
      refine ⟨?_, ?_⟩
      · simp only [List.filter_filter]
        simp
      · simp only [List.filter_filter]
        simp
  · simp only [hall]
    refine ⟨⟨fun h => absurd (by simpa using h) hall, ?_⟩, ?_⟩
    · rintro ⟨n, st', h⟩
      simp at h
    · intro n st' h
      simp at h

/-- Witness for C5: deleting ids `1` and `5` from a table holding ids 1 and 2
deletes one row; deleting them again deletes none. -/
theorem remove_deletes_members_witness :
    remove exampleDB ["1", "5"]
      ⟨[⟨1, "alice", "alice@example.com", ⟨5⟩⟩, ⟨2, "bob", "bob@example.com", ⟨6⟩⟩], 3⟩
      = (.ok 1, ⟨[⟨2, "bob", "bob@example.com", ⟨6⟩⟩], 3⟩) ∧
    remove exampleDB ["1", "5"] ⟨[⟨2, "bob", "bob@example.com", ⟨6⟩⟩], 3⟩
      = (.ok 0, ⟨[⟨2, "bob", "bob@example.com", ⟨6⟩⟩], 3⟩) :=
  ⟨by rfl,
    ((remove_deletes_members decimalId (.error "pg: no rows in result set") ["1", "5"]
      ⟨[⟨1, "alice", "alice@example.com", ⟨5⟩⟩, ⟨2, "bob", "bob@example.com", ⟨6⟩⟩], 3⟩
      (by decide)).2 1 ⟨[⟨2, "bob", "bob@example.com", ⟨6⟩⟩], 3⟩ (by rfl)).2.2.2.2.2⟩

theorem setRows_updateQuery (id : String) (fields : List String) :
    setRows (updateQuery id fields).updateSet = .ok (updatedRow fields) ∧
    (updateQuery id fields).updateSet ≠ [] := by
  rcases fields with _ | ⟨e, _ | ⟨n, rest⟩⟩ <;>
    simp [updateQuery, Query.Model, Query.Set, Query.Where, Query.Returning, Query.updateSet,
      setRows, setRow, User.zero] <;> (funext u; rfl)

theorem whereRows_updateQuery (parseId : String → Option Int) (id : String)
    (fields : List String) (k : Int) (hid : parseId id = some k) :
    whereRows parseId (updateQuery id fields).conds = .ok (fun u => decide (u.Id = k) && true) := by
  rcases fields with _ | ⟨e, _ | ⟨n, rest⟩⟩ <;>
    simp [updateQuery, Query.Model, Query.Set, Query.Where, Query.Returning, whereRows,
      condRows, hid]

/-- Over the storage layer of the specification, a successful `update` on the
id of an existing row keeps every row in its place and its id, changes
nothing in a row with another id, and changes a row with that id by
`updatedRow`; the user returned is such a row after the change. -/
theorem update_effect (parseId : String → Option Int) (noRow : Except Err User)
    (id : String) (fields : List String) (st st' : Store) (k : Int) (user : User)
    (hid : parseId id = some k) (hrow : ∃ u ∈ st.rows, u.Id = k)
    (hupd : update (tableDB parseId noRow) id fields st = (.ok user, st')) :
    st'.rows = st.rows.map (fun u => if u.Id = k then updatedRow fields u else u) ∧
    st'.nextId = st.nextId ∧
    (∃ u ∈ st.rows, u.Id = k ∧ user = updatedRow fields u) := by
  rw [update_eq] at hupd
  simp only [tableDB, execUpdate, (setRows_updateQuery id fields).1,
    (setRows_updateQuery id fields).2, if_false,
    whereRows_updateQuery parseId id fields k hid] at hupd
  split_ifs at hupd with huniq
  · cases hfind : st.rows.find? (fun u => decide (u.Id = k) && true) with
    | none =>
      obtain ⟨u, hu, huk⟩ := hrow
      have := List.find?_eq_none.1 hfind u hu
      simp [huk] at this
    | some u0 =>
      rw [hfind] at hupd
      simp only [Prod.mk.injEq, Except.ok.injEq] at hupd
      obtain ⟨huser, hst⟩ := hupd
      have hu0mem : u0 ∈ st.rows := List.mem_of_find?_eq_some hfind
      have hu0k : u0.Id = k := by simpa using List.find?_some hfind
      refine ⟨?_, by rw [← hst], ⟨u0, hu0mem, hu0k, huser.symm⟩⟩
      rw [← hst]
      simp
  · simp at hupd

/-- C4, the code at the failing input: on a table holding alice (id 1) and bob
(id 2), `users pg update 1`, an update with no field, succeeds and does not
leave row 1 as it was: its `username` and `email` become empty strings and
its `created_at` the zero time, and the user returned is that overwritten
row, not alice; row 2 is unchanged. -/
theorem update_no_field_overwrites :
    update exampleDB "1" []
      ⟨[⟨1, "alice", "alice@example.com", ⟨5⟩⟩, ⟨2, "bob", "bob@example.com", ⟨6⟩⟩], 3⟩
      = (.ok ⟨1, "", "", ⟨0⟩⟩,
          ⟨[⟨1, "", "", ⟨0⟩⟩, ⟨2, "bob", "bob@example.com", ⟨6⟩⟩], 3⟩) ∧
    (dispatch exampleDB exampleTimeString ⟨9⟩ ["users", "pg", "update", "1"]
      ⟨[⟨1, "alice", "alice@example.com", ⟨5⟩⟩, ⟨2, "bob", "bob@example.com", ⟨6⟩⟩], 3⟩).st
      = ⟨[⟨1, "", "", ⟨0⟩⟩, ⟨2, "bob", "bob@example.com", ⟨6⟩⟩], 3⟩ ∧
    (dispatch exampleDB exampleTimeString ⟨9⟩ ["users", "pg", "update", "1"]
      ⟨[⟨1, "alice", "alice@example.com", ⟨5⟩⟩, ⟨2, "bob", "bob@example.com", ⟨6⟩⟩], 3⟩).exit
      = .returned := by
  refine ⟨by rfl, by rfl, by rfl⟩

/-- With one field the same call changes the email of row 1 only. -/
theorem update_one_field_example :
    update exampleDB "1" ["new@example.com"]
      ⟨[⟨1, "alice", "alice@example.com", ⟨5⟩⟩, ⟨2, "bob", "bob@example.com", ⟨6⟩⟩], 3⟩
      = (.ok ⟨1, "alice", "new@example.com", ⟨5⟩⟩,
          ⟨[⟨1, "alice", "new@example.com", ⟨5⟩⟩, ⟨2, "bob", "bob@example.com", ⟨6⟩⟩], 3⟩) := by
  rfl

end Postgres
